import Mathlib

/-!
# Verification of the OpenVPN exporter's status-parsing engine

Shallow embedding of `exporters/openvpn_exporter.go`: the format detector
(`collectStatusFromReader`), the snapshot parser / metric reducer
(`collectServerStatusFromReader`), the deduplication helpers (`contains`,
`subslice`), and the scrape driver (`Collect`).  Go maps are modelled as
association lists where insertion conses to the front (so lookup finds the
most recent binding, matching Go map overwrite semantics); the metric
channel is modelled as the list of emitted tuples; fatal errors are an
`Option` alongside the tuples already emitted before the failure.
-/

namespace OpenvpnExporter

/-- Mirror of the Go `GeoIP` struct (coordinates as rationals; the engine
only ever compares them with zero and threads them through to the distance
callback, so no real-number trigonometry is needed). -/
structure GeoIP where
  ip : String
  countryName : String
  regionName : String
  city : String
  lat : ℚ
  lon : ℚ
  geohash : String
deriving DecidableEq, Repr

/-- Prometheus value kinds used by the exporter. -/
inductive ValueType where
  | counter
  | gauge
deriving DecidableEq, Repr

/-- Mirror of `OpenvpnServerHeaderField`: the `Desc` pointer is represented
by the metric's fully-qualified name, which `prometheus.NewDesc` derives via
`BuildFQName`. -/
structure OpenvpnServerHeaderField where
  column : String
  name : String
  valueType : ValueType
deriving DecidableEq, Repr

/-- Mirror of `OpenvpnServerHeader`. -/
structure OpenvpnServerHeader where
  labelColumns : List String
  metrics : List OpenvpnServerHeaderField
deriving DecidableEq, Repr

/-- One metric sent on the channel: `prometheus.MustNewConstMetric`'s
identity, kind, value and ordered label values. -/
structure MetricTuple where
  name : String
  vtype : ValueType
  value : ℚ
  labels : List String
deriving DecidableEq, Repr

/-- Association-list lookup, first (most recent) binding wins. -/
def alookup {κ α : Type} [DecidableEq κ] (m : List (κ × α)) (k : κ) : Option α :=
  (m.find? (fun p => p.1 = k)).map Prod.snd

/-- Go map update: cons the new binding so `alookup` sees it first. -/
def aset {κ α : Type} (m : List (κ × α)) (k : κ) (v : α) : List (κ × α) :=
  (k, v) :: m

/-- The column-order label lists of `NewOpenVPNExporter`. -/
def serverHeaderClientLabelColumns : List String :=
  ["Common Name", "Connected Since (time_t)", "Real Address", "Virtual Address",
   "Username", "Geohash", "City", "Country", "Region"]

/-- The column-order label lists of `NewOpenVPNExporter` for routing rows. -/
def serverHeaderRoutingLabelColumns : List String :=
  ["Common Name", "Real Address", "Virtual Address", "Username",
   "Geohash", "City", "Country", "Region"]

/-- The CLIENT_LIST schema entry of `openvpnServerHeaders`. -/
def clientListHeader : OpenvpnServerHeader :=
  { labelColumns := serverHeaderClientLabelColumns,
    metrics :=
      [{ column := "Bytes Received",
         name := "openvpn_server_client_received_bytes_total",
         valueType := .counter },
       { column := "Bytes Sent",
         name := "openvpn_server_client_sent_bytes_total",
         valueType := .counter },
       { column := "Distance From Server",
         name := "openvpn_server_client_distance",
         valueType := .gauge }] }

/-- The ROUTING_TABLE schema entry of `openvpnServerHeaders`. -/
def routingTableHeader : OpenvpnServerHeader :=
  { labelColumns := serverHeaderRoutingLabelColumns,
    metrics :=
      [{ column := "Last Ref (time_t)",
         name := "openvpn_server_route_last_reference_time_seconds",
         valueType := .gauge }] }

/-- The static record-schema table `openvpnServerHeaders` built in
`NewOpenVPNExporter`, with `prometheus.BuildFQName("openvpn", sub, name)`
spelled out. -/
def openvpnServerHeaders : List (String × OpenvpnServerHeader) :=
  [("CLIENT_LIST", clientListHeader), ("ROUTING_TABLE", routingTableHeader)]

/-- Structural split of a character list at every occurrence of `sep`;
`strings.Split` for a one-character separator (the only separators the
exporter uses are "," and "\t").  Never returns the empty list. -/
def splitOnChar (sep : Char) : List Char → List (List Char)
  | [] => [[]]
  | c :: rest =>
    let r := splitOnChar sep rest
    if c = sep then [] :: r
    else
      match r with
      | [] => [[c]]
      | p :: ps => (c :: p) :: ps

/-- `strings.Split(line, sep)` for the exporter's one-character separators. -/
def splitFields (sep : Char) (line : String) : List String :=
  (splitOnChar sep line.toList).map (fun cs => ⟨cs⟩)

/-- `bytes.HasPrefix` / `strings.HasPrefix` on the underlying characters. -/
def strStartsWith (s p : String) : Bool :=
  p.toList.isPrefixOf s.toList

/-- Go `contains`: does the slice contain the string. -/
def contains (s : List String) (e : String) : Bool :=
  s.any (fun a => a = e)

/-- Go `subslice`: every element of `sub` occurs in `main`, with the
short-circuit length guard. -/
def subslice (sub main : List String) : Bool :=
  if main.length < sub.length then false
  else sub.all (fun s => contains main s)

/-- Value of a digit character. -/
def digitVal (c : Char) : ℕ := c.toNat - 48

/-- Numeric value of a digit string (caller has checked `isDigit`). -/
def digitsVal (cs : List Char) : ℕ :=
  cs.foldl (fun a c => 10 * a + digitVal c) 0

/-- Model of `strconv.ParseFloat` restricted to the plain decimal forms the
status file carries: optional sign, digits, optional single fractional
part; anything else is a parse error.  Returns the exact rational value. -/
def parseFloat (s : String) : Option ℚ :=
  let signed : Int × List Char :=
    match s.toList with
    | '+' :: r => (1, r)
    | '-' :: r => (-1, r)
    | r => (1, r)
  match splitOnChar '.' signed.2 with
  | [intPart] =>
      if intPart ≠ [] ∧ intPart.all Char.isDigit then
        some (mkRat (signed.1 * digitsVal intPart) 1)
      else none
  | [intPart, fracPart] =>
      if (intPart ≠ [] ∨ fracPart ≠ []) ∧ intPart.all Char.isDigit ∧
          fracPart.all Char.isDigit then
        some (mkRat (signed.1 *
          (digitsVal intPart * 10 ^ fracPart.length + digitsVal fracPart))
          (10 ^ fracPart.length))
      else none
  | _ => none

/-- The environment a scrape runs in: the server's own location resolved at
startup (`e.geoIP`), the geo resolver (`getGeo`, `none` = error), and the
rendering of `fmt.Sprintf("%f", distance(...))` for the non-degenerate
distance branch (opaque to every claim, which only concerns the zero
branch). -/
structure Env where
  sg : GeoIP
  resolve : String → Option GeoIP
  distFmt : ℚ → ℚ → ℚ → ℚ → String

/-- The five server-level label values prepended to every emission. -/
def serverLabels (sg : GeoIP) : List String :=
  [sg.geohash, sg.city, sg.countryName, sg.regionName, sg.ip]

/-- Loop state of `collectServerStatusFromReader`. -/
structure ScanState where
  headersFound : List (String × List String)
  numberConnectedClient : ℕ
  recordedMetrics : List (OpenvpnServerHeaderField × List String)
deriving Repr

/-- Initial loop state. -/
def initState : ScanState := ⟨[], 0, []⟩

/-- Fatal in-loop errors of `collectServerStatusFromReader`. -/
inductive CollectError where
  | timeParse (s : String)
  | missingHeader (t : String)
  | columnMismatch (t : String)
  | valueParse (s : String)
  | unsupportedKey (k : String)
deriving DecidableEq, Repr

/-- Scrape-level errors (format rejection, in-loop fatals, scanner I/O
error, file-open failure). -/
inductive ScrapeError where
  | clientNotSupported
  | unexpectedContents (prefixBytes : String)
  | structural (e : CollectError)
  | scan (s : String)
  | openFile (s : String)
deriving DecidableEq, Repr

/-- `columnValues` initialisation: every label column starts empty. -/
def initColumnValues (labelColumns : List String) : List (String × String) :=
  labelColumns.foldl (fun m c => aset m c "") []

/-- Overlay declared columns with the row's values by position
(`fields[i+1]`). -/
def overlayColumns (m : List (String × String)) (columnNames fields : List String) :
    List (String × String) :=
  (columnNames.zip (fields.drop 1)).foldl (fun m p => aset m p.1 p.2) m

/-- Go map indexing with the zero-value default. -/
def getCol (m : List (String × String)) (k : String) : String :=
  (alookup m k).getD ""

/-- The geo-resolution overlay of a data row: if a Real Address is present,
strip the port, resolve, and on success synthesize Geohash / City / Region /
Country and the Distance From Server value (forced to "0" when the server's
own coordinates never resolved). -/
def geoOverlay (env : Env) (cv : List (String × String)) : List (String × String) :=
  if getCol cv "Real Address" ≠ "" then
    let ip := (splitFields ':' (getCol cv "Real Address")).headD ""
    match env.resolve ip with
    | none => cv
    | some geo =>
      let cv := aset cv "Geohash" geo.geohash
      let cv := aset cv "City" (if geo.city ≠ "" then geo.city else "Unknown")
      let cv := aset cv "Region" (if geo.regionName ≠ "" then geo.regionName else "Unknown")
      let cv := aset cv "Country" (if geo.countryName ≠ "" then geo.countryName else "Unknown")
      if env.sg.lon = 0 ∧ env.sg.lat = 0 then
        aset cv "Distance From Server" "0"
      else
        aset cv "Distance From Server" (env.distFmt geo.lat geo.lon env.sg.lat env.sg.lon)
  else cv

/-- The label vector: five server-level labels, then the RecordType's label
columns read from the merged mapping. -/
def buildLabels (sg : GeoIP) (labelColumns : List String)
    (cv : List (String × String)) : List String :=
  serverLabels sg ++ labelColumns.map (fun c => getCol cv c)

/-- The per-row metric emission loop: for each declared metric field whose
source column is present, the dedup test `subslice(labels, recorded)` gates
emission; a value parse failure is fatal; emitted label values are appended
flat onto the field's recorded list. -/
def emitMetrics (metrics : List OpenvpnServerHeaderField)
    (cv : List (String × String)) (labels : List String)
    (recorded : List (OpenvpnServerHeaderField × List String)) :
    List (OpenvpnServerHeaderField × List String) × List MetricTuple × Option CollectError :=
  match metrics with
  | [] => (recorded, [], none)
  | metric :: rest =>
    match alookup cv metric.column with
    | none => emitMetrics rest cv labels recorded
    | some columnValue =>
      let l := (alookup recorded metric).getD []
      if subslice labels l then
        emitMetrics rest cv labels recorded
      else
        match parseFloat columnValue with
        | none => (recorded, [], some (.valueParse columnValue))
        | some value =>
          let out := emitMetrics rest cv labels (aset recorded metric (l ++ labels))
          (out.1, ⟨metric.name, metric.valueType, value, labels⟩ :: out.2.1, out.2.2)

/-- Processing of a data row of a known RecordType: header-presence and
column-count checks, column-value construction, the Common Name drop, the
client counter, the geo overlay, label building and metric emission. -/
def processDataRow (env : Env) (t : String) (header : OpenvpnServerHeader)
    (fields : List String) (st : ScanState) :
    ScanState × List MetricTuple × Option CollectError :=
  match alookup st.headersFound t with
  | none => (st, [], some (.missingHeader t))
  | some columnNames =>
    if fields.length ≠ columnNames.length + 1 then
      (st, [], some (.columnMismatch t))
    else
      let cv := overlayColumns (initColumnValues header.labelColumns) columnNames fields
      if getCol cv "Common Name" = "UNDEF" ∨ getCol cv "Common Name" = "" then
        (st, [], none)
      else
        let n := if t = "CLIENT_LIST" then st.numberConnectedClient + 1
                 else st.numberConnectedClient
        let cv := geoOverlay env cv
        let labels := buildLabels env.sg header.labelColumns cv
        let out := emitMetrics header.metrics cv labels st.recordedMetrics
        (⟨st.headersFound, n, out.1⟩, out.2.1, out.2.2)

/-- One iteration of the line loop of `collectServerStatusFromReader`:
dispatch on the first field. -/
def processLine (env : Env) (sep : Char) (st : ScanState) (line : String) :
    ScanState × List MetricTuple × Option CollectError :=
  let fields := splitFields sep line
  let f0 := fields.headD ""
  if f0 = "END" ∧ fields.length = 1 then (st, [], none)
  else if f0 = "GLOBAL_STATS" then (st, [], none)
  else if f0 = "HEADER" ∧ 2 < fields.length then
    (⟨aset st.headersFound (fields.getD 1 "") (fields.drop 2),
      st.numberConnectedClient, st.recordedMetrics⟩, [], none)
  else if f0 = "TIME" ∧ fields.length = 3 then
    match parseFloat (fields.getD 2 "") with
    | none => (st, [], some (.timeParse (fields.getD 2 "")))
    | some ts =>
      (st, [⟨"openvpn_status_update_time_seconds", .gauge, ts, serverLabels env.sg⟩], none)
  else if f0 = "TITLE" ∧ fields.length = 2 then (st, [], none)
  else
    match alookup openvpnServerHeaders f0 with
    | some header => processDataRow env f0 header fields st
    | none => (st, [], some (.unsupportedKey f0))

/-- The scanner loop: process lines until exhaustion or the first fatal
error; tuples emitted before the failure are kept (they were already sent
on the channel). -/
def runLines (env : Env) (sep : Char) (st : ScanState) (lines : List String) :
    ScanState × List MetricTuple × Option CollectError :=
  match lines with
  | [] => (st, [], none)
  | line :: rest =>
    let r := processLine env sep st line
    match r.2.2 with
    | some e => (r.1, r.2.1, some e)
    | none =>
      let r2 := runLines env sep r.1 rest
      (r2.1, r.2.1 ++ r2.2.1, r2.2.2)

/-- The connected-client gauge emitted after the loop. -/
def connectedClientsTuple (sg : GeoIP) (n : ℕ) : MetricTuple :=
  ⟨"openvpn_server_connected_clients", .gauge, (n : ℚ), serverLabels sg⟩

/-- `collectServerStatusFromReader`: run the loop over the scanned lines;
an in-loop fatal error returns before the client-count emission, while loop
exhaustion (clean or by scanner I/O error `scanErr`) emits the client count
and then returns `scanner.Err()`. -/
def collectServerStatusFromReader (env : Env) (sep : Char)
    (lines : List String) (scanErr : Option String) :
    List MetricTuple × Option ScrapeError :=
  let r := runLines env sep initState lines
  match r.2.2 with
  | some e => (r.2.1, some (.structural e))
  | none =>
    (r.2.1 ++ [connectedClientsTuple env.sg r.1.numberConnectedClient],
     scanErr.map .scan)

/-- `bufio.ScanLines` over the whole stream: split on newlines, drop the
empty token after a trailing newline, strip one trailing carriage return
per line. -/
def splitLines (s : String) : List String :=
  if s = "" then []
  else
    let parts := splitOnChar '\n' s.toList
    let parts := if parts.getLast? = some [] then parts.dropLast else parts
    parts.map (fun l => ⟨if l.getLast? = some '\r' then l.dropLast else l⟩)

/-- `collectStatusFromReader`: the format detector, a pure prefix match on
the peeked bytes, then the server parser with the chosen separator. -/
def collectStatusFromReader (env : Env) (contents : String)
    (scanErr : Option String) : List MetricTuple × Option ScrapeError :=
  if strStartsWith contents "TITLE," then
    collectServerStatusFromReader env ',' (splitLines contents) scanErr
  else if strStartsWith contents "TITLE\t" then
    collectServerStatusFromReader env '\t' (splitLines contents) scanErr
  else if strStartsWith contents "OpenVPN STATISTICS" then
    ([], some .clientNotSupported)
  else
    ([], some (.unexpectedContents ⟨contents.toList.take 18⟩))

/-- `collectStatusFromFile`: an open failure yields the error with no
emissions; otherwise the reader runs on the file's contents. -/
def collectStatusFromFile (env : Env)
    (file : Except String (String × Option String)) :
    List MetricTuple × Option ScrapeError :=
  match file with
  | .error e => ([], some (.openFile e))
  | .ok c => collectStatusFromReader env c.1 c.2

/-- `Collect`: run the scrape, then always emit the `up` gauge — 1 on full
success, 0 on any error — labeled with the five server-level labels. -/
def Collect (env : Env) (file : Except String (String × Option String)) :
    List MetricTuple :=
  let r := collectStatusFromFile env file
  match r.2 with
  | none => r.1 ++ [⟨"openvpn_up", .gauge, 1, serverLabels env.sg⟩]
  | some _ => r.1 ++ [⟨"openvpn_up", .gauge, 0, serverLabels env.sg⟩]

/-- Concrete fixture: the zero-value `GeoIP` a failed startup resolution
leaves behind. -/
def sgEmpty : GeoIP := ⟨"", "", "", "", 0, 0, ""⟩

/-- Concrete fixture environment: empty server geo, failing resolver. -/
def cEnv : Env := ⟨sgEmpty, fun _ => none, fun _ _ _ _ => ""⟩

/-- Concrete fixture state: a CLIENT_LIST header declaring two columns. -/
def stW : ScanState := ⟨[("CLIENT_LIST", ["Common Name", "Bytes Received"])], 0, []⟩

/-- The metric names the line loop can emit (everything except the
post-loop connected-clients gauge and the scrape-level up gauge). -/
def bodyNames : List String :=
  ["openvpn_status_update_time_seconds",
   "openvpn_server_client_received_bytes_total",
   "openvpn_server_client_sent_bytes_total",
   "openvpn_server_client_distance",
   "openvpn_server_route_last_reference_time_seconds"]

/-- The invariant that no HEADER declaration seen so far has declared a
column literally named "Distance From Server". -/
def noDFS (st : ScanState) : Prop :=
  ∀ p ∈ st.headersFound, "Distance From Server" ∉ p.2

/-- Spec-side dedup state (spec section 4.2 step 8 and the Design Notes):
identical to `ScanState` except that the deduplication record keeps each
previously recorded label combination as a separate vector instead of one
flat value pool. -/
structure SpecScanState where
  headersFound : List (String × List String)
  numberConnectedClient : ℕ
  recordedVecs : List (OpenvpnServerHeaderField × List (List String))

/-- Initial spec-side loop state. -/
def specInitState : SpecScanState := ⟨[], 0, []⟩

/-- Modelled from the spec: the per-row metric-emission loop with a
pluggable membership policy `dup` over the previously recorded label
combinations; emission appends the current vector as one new combination.
Identical to `emitMetrics` in every other respect. -/
def emitMetricsSpec (dup : List String → List (List String) → Bool)
    (metrics : List OpenvpnServerHeaderField)
    (cv : List (String × String)) (labels : List String)
    (recorded : List (OpenvpnServerHeaderField × List (List String))) :
    List (OpenvpnServerHeaderField × List (List String)) ×
      List MetricTuple × Option CollectError :=
  match metrics with
  | [] => (recorded, [], none)
  | metric :: rest =>
    match alookup cv metric.column with
    | none => emitMetricsSpec dup rest cv labels recorded
    | some columnValue =>
      let vs := (alookup recorded metric).getD []
      if dup labels vs then
        emitMetricsSpec dup rest cv labels recorded
      else
        match parseFloat columnValue with
        | none => (recorded, [], some (.valueParse columnValue))
        | some value =>
          let out := emitMetricsSpec dup rest cv labels
            (aset recorded metric (vs ++ [labels]))
          (out.1, ⟨metric.name, metric.valueType, value, labels⟩ :: out.2.1,
            out.2.2)

/-- Spec-side data-row processing over the vector-keeping dedup state. -/
def processDataRowSpec (dup : List String → List (List String) → Bool)
    (env : Env) (t : String) (header : OpenvpnServerHeader)
    (fields : List String) (st : SpecScanState) :
    SpecScanState × List MetricTuple × Option CollectError :=
  match alookup st.headersFound t with
  | none => (st, [], some (.missingHeader t))
  | some columnNames =>
    if fields.length ≠ columnNames.length + 1 then
      (st, [], some (.columnMismatch t))
    else
      let cv := overlayColumns (initColumnValues header.labelColumns) columnNames fields
      if getCol cv "Common Name" = "UNDEF" ∨ getCol cv "Common Name" = "" then
        (st, [], none)
      else
        let n := if t = "CLIENT_LIST" then st.numberConnectedClient + 1
                 else st.numberConnectedClient
        let cv := geoOverlay env cv
        let labels := buildLabels env.sg header.labelColumns cv
        let out := emitMetricsSpec dup header.metrics cv labels st.recordedVecs
        (⟨st.headersFound, n, out.1⟩, out.2.1, out.2.2)

/-- Spec-side line dispatch (identical to `processLine` except for the
dedup state). -/
def processLineSpec (dup : List String → List (List String) → Bool)
    (env : Env) (sep : Char) (st : SpecScanState) (line : String) :
    SpecScanState × List MetricTuple × Option CollectError :=
  let fields := splitFields sep line
  let f0 := fields.headD ""
  if f0 = "END" ∧ fields.length = 1 then (st, [], none)
  else if f0 = "GLOBAL_STATS" then (st, [], none)
  else if f0 = "HEADER" ∧ 2 < fields.length then
    (⟨aset st.headersFound (fields.getD 1 "") (fields.drop 2),
      st.numberConnectedClient, st.recordedVecs⟩, [], none)
  else if f0 = "TIME" ∧ fields.length = 3 then
    match parseFloat (fields.getD 2 "") with
    | none => (st, [], some (.timeParse (fields.getD 2 "")))
    | some ts =>
      (st, [⟨"openvpn_status_update_time_seconds", .gauge, ts, serverLabels env.sg⟩], none)
  else if f0 = "TITLE" ∧ fields.length = 2 then (st, [], none)
  else
    match alookup openvpnServerHeaders f0 with
    | some header => processDataRowSpec dup env f0 header fields st
    | none => (st, [], some (.unsupportedKey f0))

/-- Spec-side scanner loop. -/
def runLinesSpec (dup : List String → List (List String) → Bool)
    (env : Env) (sep : Char) (st : SpecScanState) (lines : List String) :
    SpecScanState × List MetricTuple × Option CollectError :=
  match lines with
  | [] => (st, [], none)
  | line :: rest =>
    let r := processLineSpec dup env sep st line
    match r.2.2 with
    | some e => (r.1, r.2.1, some e)
    | none =>
      let r2 := runLinesSpec dup env sep r.1 rest
      (r2.1, r.2.1 ++ r2.2.1, r2.2.2)

/-- Spec-side whole-snapshot run. -/
def collectServerStatusSpec (dup : List String → List (List String) → Bool)
    (env : Env) (sep : Char) (lines : List String) (scanErr : Option String) :
    List MetricTuple × Option ScrapeError :=
  let r := runLinesSpec dup env sep specInitState lines
  match r.2.2 with
  | some e => (r.2.1, some (.structural e))
  | none =>
    (r.2.1 ++ [connectedClientsTuple env.sg r.1.numberConnectedClient],
     scanErr.map .scan)

/-- The claim's membership policy: some single previously recorded label
combination is a value-superset of the current vector. -/
def perVecDup (labels : List String) (vs : List (List String)) : Bool :=
  vs.any (fun v => subslice labels v)

/-- The policy the code actually implements, restated over combinations:
the pooled values of all previously recorded combinations (in order) form
a superset of the current vector's values. -/
def pooledDup (labels : List String) (vs : List (List String)) : Bool :=
  subslice labels vs.flatten

/-- Input on which the two dedup policies disagree: the third row's label
values are covered by the union of the first two rows' values, but by
neither row alone. -/
def c1lines : List String :=
  ["HEADER,CLIENT_LIST,Common Name,Virtual Address,Bytes Received",
   "CLIENT_LIST,a,x,1",
   "CLIENT_LIST,b,y,1",
   "CLIENT_LIST,a,y,1"]

/-- Simulation relation between the code's flat per-field value pool and
the spec-side list of recorded combinations: the pool is the concatenation
of the combinations. -/
def RecRel (rc : List (OpenvpnServerHeaderField × List String))
    (rv : List (OpenvpnServerHeaderField × List (List String))) : Prop :=
  ∀ f, (alookup rc f).getD [] = ((alookup rv f).getD []).flatten

/-- Simulation relation between the two loop states. -/
def StRel (st : ScanState) (ss : SpecScanState) : Prop :=
  st.headersFound = ss.headersFound ∧
  st.numberConnectedClient = ss.numberConnectedClient ∧
  RecRel st.recordedMetrics ss.recordedVecs

/-- The per-field recorded value pools only ever grow by appending. -/
def recLE (r1 r2 : List (OpenvpnServerHeaderField × List String)) : Prop :=
  ∀ f, ((alookup r1 f).getD []) <+: ((alookup r2 f).getD [])

lemma alookup_aset_self {κ α : Type} [DecidableEq κ] (m : List (κ × α)) (k : κ) (v : α) :
    alookup (aset m k v) k = some v := by
  simp [alookup, aset, List.find?]

lemma alookup_aset_ne {κ α : Type} [DecidableEq κ] (m : List (κ × α)) (k k' : κ) (v : α)
    (h : k ≠ k') : alookup (aset m k v) k' = alookup m k' := by
  simp [alookup, aset, List.find?, h]

lemma contains_iff (s : List String) (e : String) : contains s e = true ↔ e ∈ s := by
  simp [contains, List.any_eq_true]

lemma subslice_iff (sub main : List String) :
    subslice sub main = true ↔ sub.length ≤ main.length ∧ ∀ x ∈ sub, x ∈ main := by
  unfold subslice
  split
  · constructor
    · intro h; exact absurd h (by simp)
    · intro h; omega
  · rw [List.all_eq_true]
    constructor
    · intro h; exact ⟨by omega, fun x hx => (contains_iff _ _).mp (h x hx)⟩
    · intro h x hx; exact (contains_iff _ _).mpr (h.2 x hx)

lemma table_cases {t : String} {hdr : OpenvpnServerHeader}
    (ht : alookup openvpnServerHeaders t = some hdr) :
    (t = "CLIENT_LIST" ∧ hdr = clientListHeader) ∨
    (t = "ROUTING_TABLE" ∧ hdr = routingTableHeader) := by
  by_cases h1 : t = "CLIENT_LIST"
  · subst h1
    left
    refine ⟨rfl, ?_⟩
    have : alookup openvpnServerHeaders "CLIENT_LIST" = some clientListHeader := by rfl
    rw [this] at ht
    exact (Option.some_injective _ ht).symm
  · by_cases h2 : t = "ROUTING_TABLE"
    · subst h2
      right
      refine ⟨rfl, ?_⟩
      have : alookup openvpnServerHeaders "ROUTING_TABLE" = some routingTableHeader := by rfl
      rw [this] at ht
      exact (Option.some_injective _ ht).symm
    · exfalso
      simp [alookup, openvpnServerHeaders, List.find?, Ne.symm h1, Ne.symm h2] at ht

lemma processLine_data {env : Env} {sep : Char} {st : ScanState} {line : String}
    {hdr : OpenvpnServerHeader}
    (h : alookup openvpnServerHeaders ((splitFields sep line).headD "") = some hdr) :
    processLine env sep st line =
      processDataRow env ((splitFields sep line).headD "") hdr (splitFields sep line) st := by
  rcases table_cases h with ⟨ht, hh⟩ | ⟨ht, hh⟩ <;> subst hh <;>
    simp only [processLine, ht] <;>
    simp [alookup, openvpnServerHeaders, List.find?]

lemma strStartsWith_excl {s p q : String} (hlen : p.toList.length ≤ q.toList.length)
    (hpq : p.toList.isPrefixOf q.toList = false)
    (hq : strStartsWith s q = true) : strStartsWith s p = false := by
  by_contra hcon
  rw [Bool.not_eq_false] at hcon
  unfold strStartsWith at hcon hq
  rw [List.isPrefixOf_iff_prefix] at hcon hq
  have h2 := List.prefix_of_prefix_length_le hcon hq hlen
  rw [← List.isPrefixOf_iff_prefix] at h2
  rw [h2] at hpq
  exact Bool.noConfusion hpq

/-- C2: format detection is a pure prefix match: a "TITLE," prefix selects
comma separation, "TITLE\t" selects tab, an "OpenVPN STATISTICS" prefix is
rejected as unsupported client statistics, and any other prefix is rejected
as unexpected contents; in both rejection cases nothing from the stream
body is processed (no tuples are emitted). -/
theorem c2_format_detection (env : Env) (scanErr : Option String) (contents : String) :
    (strStartsWith contents "TITLE," = true →
      collectStatusFromReader env contents scanErr =
        collectServerStatusFromReader env ',' (splitLines contents) scanErr) ∧
    (strStartsWith contents "TITLE\t" = true →
      collectStatusFromReader env contents scanErr =
        collectServerStatusFromReader env '\t' (splitLines contents) scanErr) ∧
    (strStartsWith contents "OpenVPN STATISTICS" = true →
      collectStatusFromReader env contents scanErr = ([], some .clientNotSupported)) ∧
    (strStartsWith contents "TITLE," = false →
      strStartsWith contents "TITLE\t" = false →
      strStartsWith contents "OpenVPN STATISTICS" = false →
      collectStatusFromReader env contents scanErr =
        ([], some (.unexpectedContents ⟨contents.toList.take 18⟩))) := by
  refine ⟨fun h1 => ?_, fun h2 => ?_, fun h3 => ?_, fun h1 h2 h3 => ?_⟩
  · simp [collectStatusFromReader, h1]
  · have h1 : strStartsWith contents "TITLE," = false :=
      strStartsWith_excl (by decide) (by decide) h2
    simp [collectStatusFromReader, h1, h2]
  · have h1 : strStartsWith contents "TITLE," = false :=
      strStartsWith_excl (by decide) (by decide) h3
    have h2 : strStartsWith contents "TITLE\t" = false :=
      strStartsWith_excl (by decide) (by decide) h3
    simp [collectStatusFromReader, h1, h2, h3]
  · simp [collectStatusFromReader, h1, h2, h3]

/-- Witness for C2 at concrete inputs: one accepted comma snapshot, one
rejected client snapshot, one rejected garbage snapshot. -/
theorem c2_format_detection_witness :
    collectStatusFromReader cEnv "TITLE,x" none =
      collectServerStatusFromReader cEnv ',' (splitLines "TITLE,x") none ∧
    collectStatusFromReader cEnv "OpenVPN STATISTICS,u" none =
      ([], some .clientNotSupported) ∧
    collectStatusFromReader cEnv "garbage" none =
      ([], some (.unexpectedContents "garbage")) := by
  refine ⟨(c2_format_detection cEnv none "TITLE,x").1 (by decide),
    (c2_format_detection cEnv none "OpenVPN STATISTICS,u").2.2.1 (by decide), ?_⟩
  exact (c2_format_detection cEnv none "garbage").2.2.2 (by decide) (by decide) (by decide)

/-- C3 counterexample: a HEADER line with exactly 2 fields (minimum the
claim admits) is not recorded; it falls through to the unknown-keyword case
and the scrape fails. -/
theorem c3_counterexample :
    collectServerStatusFromReader cEnv ',' ["HEADER,CLIENT_LIST"] none =
      ([], some (.structural (.unsupportedKey "HEADER"))) ∧
    (runLines cEnv ',' initState ["HEADER,CLIENT_LIST"]).1.headersFound = [] := by
  decide

/-- C3 amended: a HEADER line with more than 2 fields (at least one column
name) records fields[1] as the RecordType and the remaining fields as its
column order, overwriting any prior declaration for that type, leaving the
rest of the state untouched, and does not fail. -/
theorem c3_header_amended (env : Env) (sep : Char) (st : ScanState) (line : String)
    (hf : (splitFields sep line).headD "" = "HEADER")
    (hl : 2 < (splitFields sep line).length) :
    ∃ st2, processLine env sep st line = (st2, [], none) ∧
      alookup st2.headersFound ((splitFields sep line).getD 1 "") =
        some ((splitFields sep line).drop 2) ∧
      (∀ t, t ≠ (splitFields sep line).getD 1 "" →
        alookup st2.headersFound t = alookup st.headersFound t) ∧
      st2.numberConnectedClient = st.numberConnectedClient ∧
      st2.recordedMetrics = st.recordedMetrics := by
  have hstep : processLine env sep st line =
      (⟨aset st.headersFound ((splitFields sep line).getD 1 "")
          ((splitFields sep line).drop 2),
        st.numberConnectedClient, st.recordedMetrics⟩, [], none) := by
    simp only [processLine, hf]
    simp [hl]
  exact ⟨_, hstep, alookup_aset_self _ _ _,
    fun t ht => alookup_aset_ne _ _ _ _ (Ne.symm ht), rfl, rfl⟩

/-- Witness for C3 amended at a concrete HEADER line. -/
theorem c3_header_amended_witness :
    ∃ st2, processLine cEnv ',' initState "HEADER,CLIENT_LIST,Common Name" =
      (st2, [], none) ∧
      alookup st2.headersFound "CLIENT_LIST" = some ["Common Name"] := by
  obtain ⟨st2, h1, h2, -, -, -⟩ :=
    c3_header_amended cEnv ',' initState "HEADER,CLIENT_LIST,Common Name"
      (by decide) (by decide)
  exact ⟨st2, h1, h2⟩

/-- C4: a CLIENT_LIST data row (well-formed with respect to its declared
columns) whose Common Name value is "UNDEF" or empty is dropped silently:
the state (including the connected-client counter) is unchanged, no tuple
is emitted, and no error is raised. -/
theorem c4_undef_dropped (env : Env) (sep : Char) (st : ScanState) (line : String)
    (cns : List String)
    (hf : (splitFields sep line).headD "" = "CLIENT_LIST")
    (hh : alookup st.headersFound "CLIENT_LIST" = some cns)
    (hlen : (splitFields sep line).length = cns.length + 1)
    (hcn : getCol (overlayColumns (initColumnValues serverHeaderClientLabelColumns) cns
        (splitFields sep line)) "Common Name" = "UNDEF" ∨
      getCol (overlayColumns (initColumnValues serverHeaderClientLabelColumns) cns
        (splitFields sep line)) "Common Name" = "") :
    processLine env sep st line = (st, [], none) := by
  have hd : alookup openvpnServerHeaders ((splitFields sep line).headD "") =
      some clientListHeader := by rw [hf]; rfl
  rw [processLine_data hd, hf]
  unfold processDataRow
  simp only [hh, hlen, clientListHeader]
  rw [if_neg (by omega), if_pos hcn]

/-- Witness for C4 at a concrete UNDEF row. -/
theorem c4_undef_dropped_witness :
    processLine cEnv ',' stW "CLIENT_LIST,UNDEF,5" = (stW, [], none) :=
  c4_undef_dropped cEnv ',' stW "CLIENT_LIST,UNDEF,5" ["Common Name", "Bytes Received"]
    (by decide) (by decide) (by decide) (Or.inl (by decide))

/-- C5: a data row of a known RecordType with no preceding HEADER
declaration halts the whole snapshot with a missing-header error; with a
declaration whose column count plus one differs from the row's field count
it halts with a column-mismatch error (subsequent lines are not processed
in either case). -/
theorem c5_structural_errors (env : Env) (sep : Char) (st : ScanState) (line : String)
    (hdr : OpenvpnServerHeader)
    (ht : alookup openvpnServerHeaders ((splitFields sep line).headD "") = some hdr) :
    (alookup st.headersFound ((splitFields sep line).headD "") = none →
      ∀ rest, runLines env sep st (line :: rest) =
        (st, [], some (.missingHeader ((splitFields sep line).headD "")))) ∧
    (∀ cns, alookup st.headersFound ((splitFields sep line).headD "") = some cns →
      (splitFields sep line).length ≠ cns.length + 1 →
      ∀ rest, runLines env sep st (line :: rest) =
        (st, [], some (.columnMismatch ((splitFields sep line).headD "")))) := by
  constructor
  · intro hn rest
    have hstep : processLine env sep st line =
        (st, [], some (.missingHeader ((splitFields sep line).headD ""))) := by
      rw [processLine_data ht]
      unfold processDataRow
      simp only [hn]
    simp [runLines, hstep]
  · intro cns hc hne rest
    have hstep : processLine env sep st line =
        (st, [], some (.columnMismatch ((splitFields sep line).headD ""))) := by
      rw [processLine_data ht]
      unfold processDataRow
      simp only [hc]
      rw [if_pos hne]
    simp [runLines, hstep]

/-- Witness for C5: a CLIENT_LIST row before any HEADER, and a CLIENT_LIST
row with the wrong number of fields. -/
theorem c5_structural_errors_witness :
    runLines cEnv ',' initState ["CLIENT_LIST,a,1", "END"] =
      (initState, [], some (.missingHeader "CLIENT_LIST")) ∧
    runLines cEnv ',' stW ["CLIENT_LIST,a", "END"] =
      (stW, [], some (.columnMismatch "CLIENT_LIST")) := by
  constructor
  · exact (c5_structural_errors cEnv ',' initState "CLIENT_LIST,a,1" clientListHeader
      (by decide)).1 (by decide) ["END"]
  · exact (c5_structural_errors cEnv ',' stW "CLIENT_LIST,a" clientListHeader
      (by decide)).2 ["Common Name", "Bytes Received"] (by decide) (by decide) ["END"]

lemma emitMetrics_name_mem {ms : List OpenvpnServerHeaderField}
    {cv : List (String × String)} {labels : List String}
    {rc : List (OpenvpnServerHeaderField × List String)} {tup : MetricTuple}
    (h : tup ∈ (emitMetrics ms cv labels rc).2.1) :
    ∃ f, f ∈ ms ∧ tup.name = f.name ∧ tup.labels = labels := by
  induction ms generalizing rc with
  | nil => simp [emitMetrics] at h
  | cons m rest ih =>
    simp only [emitMetrics] at h
    split at h
    · obtain ⟨f, hf, h1, h2⟩ := ih h
      exact ⟨f, List.mem_cons_of_mem _ hf, h1, h2⟩
    · split at h
      · obtain ⟨f, hf, h1, h2⟩ := ih h
        exact ⟨f, List.mem_cons_of_mem _ hf, h1, h2⟩
      · split at h
        · simp at h
        · rcases List.mem_cons.mp h with h | h
          · exact ⟨m, List.mem_cons_self _ _, by rw [h], by rw [h]⟩
          · obtain ⟨f, hf, h1, h2⟩ := ih h
            exact ⟨f, List.mem_cons_of_mem _ hf, h1, h2⟩

lemma processDataRow_out {env : Env} {t : String} {hdr : OpenvpnServerHeader}
    {fields : List String} {st : ScanState} {tup : MetricTuple}
    (h : tup ∈ (processDataRow env t hdr fields st).2.1) :
    ∃ f, f ∈ hdr.metrics ∧ tup.name = f.name ∧
      ∃ rest, tup.labels = serverLabels env.sg ++ rest := by
  simp only [processDataRow] at h
  split at h
  · simp at h
  · split at h
    · simp at h
    · split at h
      · simp at h
      · obtain ⟨f, hf, h1, h2⟩ := emitMetrics_name_mem h
        exact ⟨f, hf, h1, _, by rw [h2]; rfl⟩

lemma table_metric_names {t : String} {hdr : OpenvpnServerHeader}
    {f : OpenvpnServerHeaderField}
    (ht : alookup openvpnServerHeaders t = some hdr) (hf : f ∈ hdr.metrics) :
    f.name ∈ bodyNames := by
  rcases table_cases ht with ⟨-, h⟩ | ⟨-, h⟩ <;> subst h <;>
    simp [clientListHeader, routingTableHeader] at hf <;>
    rcases hf with rfl | rfl | rfl <;> decide

lemma processLine_out {env : Env} {sep : Char} {st : ScanState} {line : String}
    {tup : MetricTuple} (h : tup ∈ (processLine env sep st line).2.1) :
    tup.name ∈ bodyNames ∧ ∃ rest, tup.labels = serverLabels env.sg ++ rest := by
  simp only [processLine] at h
  split at h
  · simp at h
  · split at h
    · simp at h
    · split at h
      · simp at h
      · split at h
        · split at h
          · simp at h
          · rcases List.mem_singleton.mp h with rfl
            exact ⟨by simp [bodyNames], [], by rfl⟩
        · split at h
          · simp at h
          · split at h
            · rename_i hdr htab
              obtain ⟨f, hf, h1, h2⟩ := processDataRow_out h
              exact ⟨h1 ▸ table_metric_names htab hf, h2⟩
            · simp at h

lemma runLines_out {env : Env} {sep : Char} {st : ScanState} {lines : List String}
    {tup : MetricTuple} (h : tup ∈ (runLines env sep st lines).2.1) :
    tup.name ∈ bodyNames ∧ ∃ rest, tup.labels = serverLabels env.sg ++ rest := by
  induction lines generalizing st with
  | nil => simp [runLines] at h
  | cons l rest ih =>
    simp only [runLines] at h
    split at h
    · exact processLine_out h
    · rcases List.mem_append.mp h with h | h
      · exact processLine_out h
      · exact ih h

lemma collectServer_out {env : Env} {sep : Char} {lines : List String}
    {scanErr : Option String} {tup : MetricTuple}
    (h : tup ∈ (collectServerStatusFromReader env sep lines scanErr).1) :
    tup.name ∈ "openvpn_server_connected_clients" :: bodyNames ∧
    ∃ rest, tup.labels = serverLabels env.sg ++ rest := by
  simp only [collectServerStatusFromReader] at h
  split at h
  · obtain ⟨h1, h2⟩ := runLines_out h
    exact ⟨List.mem_cons_of_mem _ h1, h2⟩
  · rcases List.mem_append.mp h with h | h
    · obtain ⟨h1, h2⟩ := runLines_out h
      exact ⟨List.mem_cons_of_mem _ h1, h2⟩
    · rcases List.mem_singleton.mp h with rfl
      exact ⟨List.mem_cons_self _ _, [], by rfl⟩

lemma collectReader_out {env : Env} {contents : String} {scanErr : Option String}
    {tup : MetricTuple}
    (h : tup ∈ (collectStatusFromReader env contents scanErr).1) :
    tup.name ∈ "openvpn_server_connected_clients" :: bodyNames ∧
    ∃ rest, tup.labels = serverLabels env.sg ++ rest := by
  simp only [collectStatusFromReader] at h
  split at h
  · exact collectServer_out h
  · split at h
    · exact collectServer_out h
    · split at h <;> simp at h

lemma collectFile_out {env : Env} {file : Except String (String × Option String)}
    {tup : MetricTuple} (h : tup ∈ (collectStatusFromFile env file).1) :
    tup.name ∈ "openvpn_server_connected_clients" :: bodyNames ∧
    ∃ rest, tup.labels = serverLabels env.sg ++ rest := by
  simp only [collectStatusFromFile] at h
  split at h
  · simp at h
  · exact collectReader_out h

/-- C7: every scrape emits exactly one `up` gauge, as the last tuple,
labeled with the five server-level labels, with value 1 when the whole
scrape succeeded and 0 when any fatal error occurred. -/
theorem c7_up_gauge (env : Env) (file : Except String (String × Option String)) :
    (Collect env file).countP (fun t => t.name = "openvpn_up") = 1 ∧
    (Collect env file).getLast? = some ⟨"openvpn_up", .gauge,
      if (collectStatusFromFile env file).2 = none then 1 else 0,
      serverLabels env.sg⟩ := by
  have hbody : (collectStatusFromFile env file).1.countP
      (fun t => t.name = "openvpn_up") = 0 := by
    rw [List.countP_eq_zero]
    intro a ha
    have h1 := (collectFile_out ha).1
    simp only [decide_eq_true_eq]
    intro hup
    rw [hup] at h1
    revert h1
    decide
  cases he : (collectStatusFromFile env file).2 with
  | none =>
    simp only [Collect, he]
    refine ⟨?_, ?_⟩
    · rw [List.countP_append, hbody]
      rfl
    · simp [List.getLast?_concat]
  | some e =>
    simp only [Collect, he]
    refine ⟨?_, ?_⟩
    · rw [List.countP_append, hbody]
      rfl
    · simp [List.getLast?_concat]

/-- C9: a snapshot processed without fatal errors emits the
connected-client gauge exactly once, as the final tuple, labeled with the
five server-level labels and carrying the loop's client counter (0 for a
snapshot with no client rows). -/
theorem c9_client_count (env : Env) (sep : Char) (lines : List String)
    (out : List MetricTuple)
    (hrun : collectServerStatusFromReader env sep lines none = (out, none)) :
    out.countP (fun t => t.name = "openvpn_server_connected_clients") = 1 ∧
    out.getLast? = some (connectedClientsTuple env.sg
      (runLines env sep initState lines).1.numberConnectedClient) := by
  cases he : (runLines env sep initState lines).2.2 with
  | some e =>
    simp only [collectServerStatusFromReader, he] at hrun
    exact absurd (congrArg Prod.snd hrun) (by simp)
  | none =>
    simp only [collectServerStatusFromReader, he] at hrun
    have hout : out = (runLines env sep initState lines).2.1 ++
        [connectedClientsTuple env.sg
          (runLines env sep initState lines).1.numberConnectedClient] :=
      (congrArg Prod.fst hrun).symm
    subst hout
    constructor
    · rw [List.countP_append]
      have hbody : (runLines env sep initState lines).2.1.countP
          (fun t => t.name = "openvpn_server_connected_clients") = 0 := by
        rw [List.countP_eq_zero]
        intro a ha
        have h1 := (runLines_out ha).1
        simp only [decide_eq_true_eq]
        intro hcc
        rw [hcc] at h1
        revert h1
        decide
      rw [hbody]
      rfl
    · simp [List.getLast?_concat]

/-- Witness for C9 at the empty snapshot: the client-count tuple is emitted
exactly once with value 0. -/
theorem c9_client_count_witness :
    ([connectedClientsTuple sgEmpty 0] : List MetricTuple).countP
      (fun t => t.name = "openvpn_server_connected_clients") = 1 ∧
    ([connectedClientsTuple sgEmpty 0] : List MetricTuple).getLast? =
      some (connectedClientsTuple cEnv.sg
        (runLines cEnv ',' initState []).1.numberConnectedClient) :=
  c9_client_count cEnv ',' [] [connectedClientsTuple sgEmpty 0] (by decide)

/-- C10: when the loop ends by scanner exhaustion with a pending I/O error,
the connected-client gauge is still emitted before the I/O error is
returned; an in-loop structural or parse error returns without emitting
it. -/
theorem c10_scan_error (env : Env) (sep : Char) (lines : List String) (s : String) :
    ((runLines env sep initState lines).2.2 = none →
      collectServerStatusFromReader env sep lines (some s) =
        ((runLines env sep initState lines).2.1 ++
          [connectedClientsTuple env.sg
            (runLines env sep initState lines).1.numberConnectedClient],
         some (.scan s))) ∧
    (∀ e, (runLines env sep initState lines).2.2 = some e →
      ∀ scanErr, collectServerStatusFromReader env sep lines scanErr =
        ((runLines env sep initState lines).2.1, some (.structural e)) ∧
        (runLines env sep initState lines).2.1.countP
          (fun t => t.name = "openvpn_server_connected_clients") = 0) := by
  constructor
  · intro hnone
    simp only [collectServerStatusFromReader, hnone]
    rfl
  · intro e he scanErr
    constructor
    · simp only [collectServerStatusFromReader, he]
    · rw [List.countP_eq_zero]
      intro a ha
      have h1 := (runLines_out ha).1
      simp only [decide_eq_true_eq]
      intro hcc
      rw [hcc] at h1
      revert h1
      decide

/-- Witness for C10: an empty exhausted stream with an I/O error still
yields the client-count tuple; an unknown-keyword line suppresses it. -/
theorem c10_scan_error_witness :
    collectServerStatusFromReader cEnv ',' [] (some "io") =
      ([connectedClientsTuple cEnv.sg
        (runLines cEnv ',' initState []).1.numberConnectedClient],
       some (.scan "io")) ∧
    collectServerStatusFromReader cEnv ',' ["garbage"] none =
      ((runLines cEnv ',' initState ["garbage"]).2.1,
       some (.structural (.unsupportedKey "garbage"))) := by
  constructor
  · exact (c10_scan_error cEnv ',' [] "io").1 (by decide)
  · exact ((c10_scan_error cEnv ',' ["garbage"] "x").2 (.unsupportedKey "garbage")
      (by decide) none).1

lemma alookup_foldl_aset_not_mem {lc : List String} {m : List (String × String)}
    {c : String} (h : c ∉ lc) :
    alookup (lc.foldl (fun m x => aset m x "") m) c = alookup m c := by
  induction lc generalizing m with
  | nil => rfl
  | cons x rest ih =>
    rw [List.foldl_cons, ih (fun hr => h (List.mem_cons_of_mem _ hr)),
      alookup_aset_ne _ _ _ _ (fun he => h (by rw [← he]; exact List.mem_cons_self _ _))]

lemma alookup_foldl_pairs {ps : List (String × String)} {m : List (String × String)}
    {c : String} (h : ∀ p ∈ ps, p.1 ≠ c) :
    alookup (ps.foldl (fun m p => aset m p.1 p.2) m) c = alookup m c := by
  induction ps generalizing m with
  | nil => rfl
  | cons p rest ih =>
    rw [List.foldl_cons, ih (fun q hq => h q (List.mem_cons_of_mem _ hq)),
      alookup_aset_ne _ _ _ _ (h p (List.mem_cons_self _ _))]

lemma alookup_overlayColumns_not_mem {cns fields : List String}
    {m : List (String × String)} {c : String} (h : c ∉ cns) :
    alookup (overlayColumns m cns fields) c = alookup m c := by
  unfold overlayColumns
  refine alookup_foldl_pairs (fun p hp he => h ?_)
  exact he ▸ (List.of_mem_zip hp).1

lemma geoOverlay_DFS {env : Env} {cv : List (String × String)}
    (hlat : env.sg.lat = 0) (hlon : env.sg.lon = 0)
    (h : alookup cv "Distance From Server" = none) :
    alookup (geoOverlay env cv) "Distance From Server" = none ∨
    alookup (geoOverlay env cv) "Distance From Server" = some "0" := by
  simp only [geoOverlay]
  split
  · split
    · left; exact h
    · right
      rw [if_pos ⟨hlon, hlat⟩, alookup_aset_self]
  · left; exact h

lemma emitMetrics_distance_value {ms : List OpenvpnServerHeaderField}
    {cv : List (String × String)} {labels : List String}
    {rc : List (OpenvpnServerHeaderField × List String)} {tup : MetricTuple}
    (hcol : ∀ f ∈ ms, f.name = "openvpn_server_client_distance" →
      f.column = "Distance From Server")
    (hdfs : alookup cv "Distance From Server" = none ∨
      alookup cv "Distance From Server" = some "0")
    (h : tup ∈ (emitMetrics ms cv labels rc).2.1)
    (hn : tup.name = "openvpn_server_client_distance") :
    tup.value = 0 := by
  induction ms generalizing rc with
  | nil => simp [emitMetrics] at h
  | cons m rest ih =>
    have hcr : ∀ f ∈ rest, f.name = "openvpn_server_client_distance" →
        f.column = "Distance From Server" :=
      fun f hf => hcol f (List.mem_cons_of_mem _ hf)
    cases hv : alookup cv m.column with
    | none =>
      simp only [emitMetrics, hv] at h
      exact ih hcr h
    | some v =>
      by_cases hsub : subslice labels ((alookup rc m).getD []) = true
      · simp only [emitMetrics, hv, hsub, if_true] at h
        exact ih hcr h
      · cases hp : parseFloat v with
        | none =>
          simp only [emitMetrics, hv, if_neg hsub, hp] at h
          simp at h
        | some value =>
          simp only [emitMetrics, hv, if_neg hsub, hp] at h
          rcases List.mem_cons.mp h with heq | h
          · have hm : m.name = "openvpn_server_client_distance" := by
              rw [heq] at hn; exact hn
            have hc : m.column = "Distance From Server" :=
              hcol m (List.mem_cons_self _ _) hm
            rw [hc] at hv
            rcases hdfs with hd | hd
            · rw [hd] at hv; exact absurd hv (by simp)
            · rw [hd] at hv
              have hv0 : v = "0" := by
                exact (Option.some_injective _ hv).symm
              rw [hv0] at hp
              have hp0 : parseFloat "0" = some 0 := by decide
              rw [hp0] at hp
              have hval : value = 0 := (Option.some_injective _ hp).symm
              rw [heq, hval]
          · exact ih hcr h

lemma processDataRow_headersFound (env : Env) (t : String)
    (hdr : OpenvpnServerHeader) (fields : List String) (st : ScanState) :
    (processDataRow env t hdr fields st).1.headersFound = st.headersFound := by
  simp only [processDataRow]
  split
  · rfl
  · split
    · rfl
    · split <;> rfl

lemma processLine_noDFS {env : Env} {sep : Char} {st : ScanState} {line : String}
    (hst : noDFS st)
    (hline : "Distance From Server" ∉ (splitFields sep line).drop 2) :
    noDFS (processLine env sep st line).1 := by
  simp only [processLine]
  split
  · exact hst
  · split
    · exact hst
    · split
      · intro p hp
        rcases List.mem_cons.mp hp with heq | hp
        · rw [heq]; exact hline
        · exact hst p hp
      · split
        · split
          · exact hst
          · exact hst
        · split
          · exact hst
          · split
            · intro p hp
              rw [processDataRow_headersFound] at hp
              exact hst p hp
            · exact hst

lemma noDFS_lookup {st : ScanState} (hst : noDFS st) {t : String}
    {cns : List String} (hc : alookup st.headersFound t = some cns) :
    "Distance From Server" ∉ cns := by
  unfold alookup at hc
  cases hf : st.headersFound.find? (fun p => p.1 = t) with
  | none => rw [hf] at hc; simp at hc
  | some p =>
    rw [hf] at hc
    simp at hc
    have hp := List.mem_of_find?_eq_some hf
    rw [← hc]
    exact hst p hp

lemma processDataRow_distance_value {env : Env} {t : String}
    {hdr : OpenvpnServerHeader} {fields : List String} {st : ScanState}
    {tup : MetricTuple}
    (hlat : env.sg.lat = 0) (hlon : env.sg.lon = 0)
    (hcns : ∀ cns, alookup st.headersFound t = some cns →
      "Distance From Server" ∉ cns)
    (hhdr : "Distance From Server" ∉ hdr.labelColumns)
    (hcol : ∀ f ∈ hdr.metrics, f.name = "openvpn_server_client_distance" →
      f.column = "Distance From Server")
    (h : tup ∈ (processDataRow env t hdr fields st).2.1)
    (hn : tup.name = "openvpn_server_client_distance") :
    tup.value = 0 := by
  simp only [processDataRow] at h
  split at h
  · simp at h
  · rename_i cns heq
    split at h
    · simp at h
    · split at h
      · simp at h
      · have hinit : alookup (initColumnValues hdr.labelColumns)
            "Distance From Server" = none := by
          unfold initColumnValues
          rw [alookup_foldl_aset_not_mem hhdr]
          rfl
        have hover : alookup (overlayColumns (initColumnValues hdr.labelColumns)
            cns fields) "Distance From Server" = none := by
          rw [alookup_overlayColumns_not_mem (hcns cns heq), hinit]
        exact emitMetrics_distance_value hcol
          (geoOverlay_DFS hlat hlon hover) h hn

lemma processLine_distance_value {env : Env} {sep : Char} {st : ScanState}
    {line : String} {tup : MetricTuple}
    (hlat : env.sg.lat = 0) (hlon : env.sg.lon = 0) (hst : noDFS st)
    (h : tup ∈ (processLine env sep st line).2.1)
    (hn : tup.name = "openvpn_server_client_distance") :
    tup.value = 0 := by
  simp only [processLine] at h
  split at h
  · simp at h
  · split at h
    · simp at h
    · split at h
      · simp at h
      · split at h
        · split at h
          · simp at h
          · rcases List.mem_singleton.mp h with rfl
            simp at hn
        · split at h
          · simp at h
          · split at h
            · rename_i hdr htab
              have hhdr : "Distance From Server" ∉ hdr.labelColumns := by
                rcases table_cases htab with ⟨-, hh⟩ | ⟨-, hh⟩ <;> subst hh <;> decide
              have hcol : ∀ f ∈ hdr.metrics,
                  f.name = "openvpn_server_client_distance" →
                  f.column = "Distance From Server" := by
                rcases table_cases htab with ⟨-, hh⟩ | ⟨-, hh⟩ <;> subst hh <;> decide
              exact processDataRow_distance_value hlat hlon
                (fun cns hc => noDFS_lookup hst hc) hhdr hcol h hn
            · simp at h

lemma runLines_distance_value {env : Env} {sep : Char} {st : ScanState}
    {lines : List String} {tup : MetricTuple}
    (hlat : env.sg.lat = 0) (hlon : env.sg.lon = 0) (hst : noDFS st)
    (hlines : ∀ l ∈ lines, "Distance From Server" ∉ (splitFields sep l).drop 2)
    (h : tup ∈ (runLines env sep st lines).2.1)
    (hn : tup.name = "openvpn_server_client_distance") :
    tup.value = 0 := by
  induction lines generalizing st with
  | nil => simp [runLines] at h
  | cons l rest ih =>
    simp only [runLines] at h
    split at h
    · exact processLine_distance_value hlat hlon hst h hn
    · rcases List.mem_append.mp h with h | h
      · exact processLine_distance_value hlat hlon hst h hn
      · exact ih (processLine_noDFS hst (hlines l (List.mem_cons_self _ _)))
          (fun x hx => hlines x (List.mem_cons_of_mem _ hx)) h

/-- C8 counterexample: with the server's own geo resolution failed (all
fields zero/empty), a snapshot whose HEADER itself declares a
"Distance From Server" column gets its row value emitted unchanged — the
claim's "forced to zero regardless" fails on this input. -/
theorem c8_counterexample :
    cEnv.sg.lat = 0 ∧ cEnv.sg.lon = 0 ∧ cEnv.sg.geohash = "" ∧
    cEnv.sg.city = "" ∧ cEnv.sg.countryName = "" ∧ cEnv.sg.regionName = "" ∧
    cEnv.sg.ip = "" ∧
    ∃ tup ∈ (collectServerStatusFromReader cEnv ','
      ["HEADER,CLIENT_LIST,Common Name,Distance From Server",
       "CLIENT_LIST,alice,42"] none).1,
      tup.name = "openvpn_server_client_distance" ∧ tup.value = 42 := by
  decide

/-- C8 amended: if the server's own geolocation never resolved (coordinates
both zero, string fields empty) then every emitted tuple carries the five
empty server-level labels, and — provided no HEADER line itself declares a
column literally named "Distance From Server" (OpenVPN's own status
columns never do; the column is otherwise only synthesized by the geo
step) — every emitted distance value is zero regardless of the client's
resolved coordinates. -/
theorem c8_server_geo_failure_amended (env : Env) (sep : Char)
    (lines : List String) (scanErr : Option String) (tup : MetricTuple)
    (hlat : env.sg.lat = 0) (hlon : env.sg.lon = 0)
    (hgeo : env.sg.geohash = "") (hcity : env.sg.city = "")
    (hcountry : env.sg.countryName = "") (hregion : env.sg.regionName = "")
    (hip : env.sg.ip = "")
    (hlines : ∀ l ∈ lines, "Distance From Server" ∉ (splitFields sep l).drop 2)
    (h : tup ∈ (collectServerStatusFromReader env sep lines scanErr).1) :
    tup.labels.take 5 = ["", "", "", "", ""] ∧
    (tup.name = "openvpn_server_client_distance" → tup.value = 0) := by
  have h5 : serverLabels env.sg = ["", "", "", "", ""] := by
    simp [serverLabels, hgeo, hcity, hcountry, hregion, hip]
  constructor
  · obtain ⟨-, rest, hl⟩ := collectServer_out h
    rw [hl, h5]
    rfl
  · intro hn
    have hst : noDFS initState := by intro p hp; simp [initState] at hp
    simp only [collectServerStatusFromReader] at h
    split at h
    · exact runLines_distance_value hlat hlon hst hlines h hn
    · rcases List.mem_append.mp h with h | h
      · exact runLines_distance_value hlat hlon hst hlines h hn
      · rcases List.mem_singleton.mp h with rfl
        simp [connectedClientsTuple] at hn

/-- Witness for C8 amended: a concrete tuple emitted by a snapshot without
a declared distance column, under the failed server geo environment. -/
theorem c8_server_geo_failure_amended_witness :
    (⟨"openvpn_server_client_received_bytes_total", .counter, 100,
      ["", "", "", "", "", "alice", "", "", "", "", "", "", "", ""]⟩ :
        MetricTuple).labels.take 5 = ["", "", "", "", ""] ∧
    ((⟨"openvpn_server_client_received_bytes_total", .counter, 100,
      ["", "", "", "", "", "alice", "", "", "", "", "", "", "", ""]⟩ :
        MetricTuple).name = "openvpn_server_client_distance" →
      (⟨"openvpn_server_client_received_bytes_total", .counter, 100,
        ["", "", "", "", "", "alice", "", "", "", "", "", "", "", ""]⟩ :
          MetricTuple).value = 0) :=
  c8_server_geo_failure_amended cEnv ','
    ["HEADER,CLIENT_LIST,Common Name,Bytes Received", "CLIENT_LIST,alice,100"]
    none _ rfl rfl rfl rfl rfl rfl rfl (by decide) (by decide)

/-- C1 counterexample: on `c1lines` the engine suppresses the third
bytes-received tuple (its values are inside the pooled record of the first
two rows), while the claim's per-combination superset membership would
emit it: the code emits 2 such tuples, the claim's reading demands 3. -/
theorem c1_counterexample :
    (collectServerStatusFromReader cEnv ',' c1lines none).1.countP
      (fun t => t.name = "openvpn_server_client_received_bytes_total") = 2 ∧
    (collectServerStatusSpec perVecDup cEnv ',' c1lines none).1.countP
      (fun t => t.name = "openvpn_server_client_received_bytes_total") = 3 := by
  decide

lemma emitMetricsSpec_sim {ms : List OpenvpnServerHeaderField}
    {cv : List (String × String)} {labels : List String}
    {rc : List (OpenvpnServerHeaderField × List String)}
    {rv : List (OpenvpnServerHeaderField × List (List String))}
    (hr : RecRel rc rv) :
    (emitMetrics ms cv labels rc).2 = (emitMetricsSpec pooledDup ms cv labels rv).2 ∧
    RecRel (emitMetrics ms cv labels rc).1 (emitMetricsSpec pooledDup ms cv labels rv).1 := by
  induction ms generalizing rc rv with
  | nil => exact ⟨rfl, hr⟩
  | cons m rest ih =>
    cases hv : alookup cv m.column with
    | none =>
      simp only [emitMetrics, emitMetricsSpec, hv]
      exact ih hr
    | some v =>
      have hdup : pooledDup labels ((alookup rv m).getD []) =
          subslice labels ((alookup rc m).getD []) := by
        simp only [pooledDup]
        rw [hr m]
      by_cases hs : subslice labels ((alookup rc m).getD []) = true
      · have hd : pooledDup labels ((alookup rv m).getD []) = true := by
          rw [hdup]; exact hs
        simp only [emitMetrics, emitMetricsSpec, hv, hs, hd, if_true]
        exact ih hr
      · have hd : ¬ pooledDup labels ((alookup rv m).getD []) = true := by
          rw [hdup]; exact hs
        cases hp : parseFloat v with
        | none =>
          simp only [emitMetrics, emitMetricsSpec, hv, if_neg hs, if_neg hd, hp]
          exact ⟨by simp, hr⟩
        | some value =>
          have hr2 : RecRel (aset rc m ((alookup rc m).getD [] ++ labels))
              (aset rv m ((alookup rv m).getD [] ++ [labels])) := by
            intro f
            by_cases hf : m = f
            · subst hf
              rw [alookup_aset_self, alookup_aset_self]
              simp [hr m]
            · rw [alookup_aset_ne _ _ _ _ hf, alookup_aset_ne _ _ _ _ hf]
              exact hr f
          obtain ⟨ho, hrec⟩ := ih hr2
          simp only [emitMetrics, emitMetricsSpec, hv, if_neg hs, if_neg hd, hp]
          refine ⟨?_, hrec⟩
          rw [ho]

lemma processDataRowSpec_sim {env : Env} {t : String} {hdr : OpenvpnServerHeader}
    {fields : List String} {st : ScanState} {ss : SpecScanState}
    (h : StRel st ss) :
    (processDataRow env t hdr fields st).2 =
      (processDataRowSpec pooledDup env t hdr fields ss).2 ∧
    StRel (processDataRow env t hdr fields st).1
      (processDataRowSpec pooledDup env t hdr fields ss).1 := by
  obtain ⟨h1, h2, h3⟩ := h
  cases hl : alookup st.headersFound t with
  | none =>
    have hl2 : alookup ss.headersFound t = none := h1 ▸ hl
    simp only [processDataRow, processDataRowSpec, hl, hl2]
    exact ⟨by simp, h1, h2, h3⟩
  | some cns =>
    have hl2 : alookup ss.headersFound t = some cns := h1 ▸ hl
    by_cases hlen : fields.length ≠ cns.length + 1
    · simp only [processDataRow, processDataRowSpec, hl, hl2, if_pos hlen]
      exact ⟨by simp, h1, h2, h3⟩
    · by_cases hcn : getCol (overlayColumns (initColumnValues hdr.labelColumns)
          cns fields) "Common Name" = "UNDEF" ∨
          getCol (overlayColumns (initColumnValues hdr.labelColumns)
            cns fields) "Common Name" = ""
      · simp only [processDataRow, processDataRowSpec, hl, hl2, if_neg hlen,
          if_pos hcn]
        exact ⟨by simp, h1, h2, h3⟩
      · obtain ⟨ho, hrec⟩ := emitMetricsSpec_sim h3
        simp only [processDataRow, processDataRowSpec, hl, hl2, if_neg hlen,
          if_neg hcn]
        refine ⟨?_, h1, ?_, hrec⟩
        · rw [ho]
        · simp only [h2]

lemma processLineSpec_sim {env : Env} {sep : Char} {st : ScanState}
    {ss : SpecScanState} {line : String} (h : StRel st ss) :
    (processLine env sep st line).2 = (processLineSpec pooledDup env sep ss line).2 ∧
    StRel (processLine env sep st line).1 (processLineSpec pooledDup env sep ss line).1 := by
  obtain ⟨h1, h2, h3⟩ := h
  simp only [processLine, processLineSpec]
  split
  · exact ⟨by simp, h1, h2, h3⟩
  · split
    · exact ⟨by simp, h1, h2, h3⟩
    · split
      · exact ⟨by simp, by simp only [h1], h2, h3⟩
      · split
        · split
          · exact ⟨by simp, h1, h2, h3⟩
          · exact ⟨by simp, h1, h2, h3⟩
        · split
          · exact ⟨by simp, h1, h2, h3⟩
          · split
            · exact processDataRowSpec_sim ⟨h1, h2, h3⟩
            · exact ⟨by simp, h1, h2, h3⟩

lemma runLinesSpec_sim {env : Env} {sep : Char} {st : ScanState}
    {ss : SpecScanState} {lines : List String} (h : StRel st ss) :
    (runLines env sep st lines).2 = (runLinesSpec pooledDup env sep ss lines).2 ∧
    StRel (runLines env sep st lines).1 (runLinesSpec pooledDup env sep ss lines).1 := by
  induction lines generalizing st ss with
  | nil => exact ⟨rfl, h⟩
  | cons l rest ih =>
    obtain ⟨ho, hst⟩ := @processLineSpec_sim env sep st ss l h
    simp only [runLines, runLinesSpec]
    rw [ho]
    cases he : (processLineSpec pooledDup env sep ss l).2.2 with
    | some e => exact ⟨rfl, hst⟩
    | none =>
      obtain ⟨ho2, hst2⟩ := ih hst
      exact ⟨by rw [ho2], hst2⟩

/-- C1 amended: the engine behaves exactly like the spec-side reducer whose
dedup membership test is the pooled-values containment `pooledDup` — the
current label vector is a duplicate if and only if all its values occur in
the concatenation of every previously recorded label combination for that
(RecordType, field) (and that pool is at least as long as the vector) —
rather than the per-combination superset test. -/
theorem c1_dedup_pooled (env : Env) (sep : Char) (lines : List String)
    (scanErr : Option String) :
    collectServerStatusFromReader env sep lines scanErr =
      collectServerStatusSpec pooledDup env sep lines scanErr := by
  have hinit : StRel initState specInitState :=
    ⟨rfl, rfl, fun f => rfl⟩
  obtain ⟨ho, h1, h2, h3⟩ := @runLinesSpec_sim env sep initState specInitState lines hinit
  simp only [collectServerStatusFromReader, collectServerStatusSpec]
  rw [ho, h2]

lemma recLE_refl (r : List (OpenvpnServerHeaderField × List String)) : recLE r r :=
  fun _ => List.prefix_refl _

lemma recLE_trans {a b c : List (OpenvpnServerHeaderField × List String)}
    (h1 : recLE a b) (h2 : recLE b c) : recLE a c :=
  fun f => (h1 f).trans (h2 f)

lemma emitMetrics_recLE (ms : List OpenvpnServerHeaderField)
    (cv : List (String × String)) (labels : List String) :
    ∀ rc, recLE rc (emitMetrics ms cv labels rc).1 := by
  induction ms with
  | nil => intro rc; exact recLE_refl _
  | cons m rest ih =>
    intro rc
    cases hv : alookup cv m.column with
    | none =>
      simp only [emitMetrics, hv]
      exact ih _
    | some v =>
      by_cases hs : subslice labels ((alookup rc m).getD []) = true
      · simp only [emitMetrics, hv, hs, if_true]
        exact ih _
      · cases hp : parseFloat v with
        | none =>
          simp only [emitMetrics, hv, if_neg hs, hp]
          exact recLE_refl _
        | some value =>
          simp only [emitMetrics, hv, if_neg hs, hp]
          refine recLE_trans (b := aset rc m (((alookup rc m).getD []) ++ labels)) ?_ (ih _)
          intro f
          by_cases hf : m = f
          · subst hf
            rw [alookup_aset_self]
            exact List.prefix_append _ _
          · rw [alookup_aset_ne _ _ _ _ hf]

lemma processDataRow_recLE (env : Env) (t : String) (hdr : OpenvpnServerHeader)
    (fields : List String) (st : ScanState) :
    recLE st.recordedMetrics (processDataRow env t hdr fields st).1.recordedMetrics := by
  simp only [processDataRow]
  split
  · exact recLE_refl _
  · split
    · exact recLE_refl _
    · split
      · exact recLE_refl _
      · exact emitMetrics_recLE _ _ _ _

lemma processLine_recLE (env : Env) (sep : Char) (st : ScanState) (line : String) :
    recLE st.recordedMetrics (processLine env sep st line).1.recordedMetrics := by
  simp only [processLine]
  split
  · exact recLE_refl _
  · split
    · exact recLE_refl _
    · split
      · exact recLE_refl _
      · split
        · split
          · exact recLE_refl _
          · exact recLE_refl _
        · split
          · exact recLE_refl _
          · split
            · exact processDataRow_recLE _ _ _ _ _
            · exact recLE_refl _

lemma runLines_recLE (env : Env) (sep : Char) (st : ScanState) (lines : List String) :
    recLE st.recordedMetrics (runLines env sep st lines).1.recordedMetrics := by
  induction lines generalizing st with
  | nil => exact recLE_refl _
  | cons l rest ih =>
    simp only [runLines]
    split
    · exact processLine_recLE _ _ _ _
    · exact recLE_trans (processLine_recLE env sep st l) (ih _)

lemma subslice_mono {L r1 r2 : List String} (h : subslice L r1 = true)
    (hp : r1 <+: r2) : subslice L r2 = true := by
  rw [subslice_iff] at h ⊢
  exact ⟨h.1.trans hp.length_le, fun x hx => hp.subset (h.2 x hx)⟩

lemma table_metrics_nodup {t : String} {hdr : OpenvpnServerHeader}
    (ht : alookup openvpnServerHeaders t = some hdr) :
    (hdr.metrics.map (fun f => f.name)).Nodup := by
  rcases table_cases ht with ⟨-, h⟩ | ⟨-, h⟩ <;> subst h <;> decide

lemma name_not_in_rest {rest : List OpenvpnServerHeaderField}
    {cv : List (String × String)} {labels : List String}
    {rc : List (OpenvpnServerHeaderField × List String)} {tup : MetricTuple}
    (h : tup ∈ (emitMetrics rest cv labels rc).2.1) {nm : String}
    (hn : tup.name = nm) (hmn : nm ∉ rest.map (fun x => x.name)) : False := by
  obtain ⟨g, hg, hgn, -⟩ := emitMetrics_name_mem h
  exact hmn (List.mem_map.mpr ⟨g, hg, by rw [← hgn, hn]⟩)

lemma emitMetrics_recorded {ms : List OpenvpnServerHeaderField}
    {cv : List (String × String)} {labels : List String}
    {rc : List (OpenvpnServerHeaderField × List String)} {tup : MetricTuple}
    {f : OpenvpnServerHeaderField}
    (hnd : (ms.map (fun x => x.name)).Nodup) (hf : f ∈ ms)
    (h : tup ∈ (emitMetrics ms cv labels rc).2.1) (hn : tup.name = f.name) :
    subslice labels ((alookup (emitMetrics ms cv labels rc).1 f).getD []) = true := by
  induction ms generalizing rc with
  | nil => simp at hf
  | cons m rest ih =>
    have hnd2 : (rest.map (fun x => x.name)).Nodup := (List.nodup_cons.mp hnd).2
    have hmn : m.name ∉ rest.map (fun x => x.name) := (List.nodup_cons.mp hnd).1
    cases hv : alookup cv m.column with
    | none =>
      simp only [emitMetrics, hv] at h ⊢
      rcases List.mem_cons.mp hf with rfl | hf2
      · exact (name_not_in_rest h hn hmn).elim
      · exact ih hnd2 hf2 h
    | some v =>
      by_cases hs : subslice labels ((alookup rc m).getD []) = true
      · simp only [emitMetrics, hv, hs, if_true] at h ⊢
        rcases List.mem_cons.mp hf with rfl | hf2
        · exact (name_not_in_rest h hn hmn).elim
        · exact ih hnd2 hf2 h
      · cases hp : parseFloat v with
        | none =>
          simp only [emitMetrics, hv, if_neg hs, hp] at h
          simp at h
        | some value =>
          simp only [emitMetrics, hv, if_neg hs, hp] at h ⊢
          rcases List.mem_cons.mp h with heq | h
          · have hfm : f = m := by
              rcases List.mem_cons.mp hf with rfl | hf2
              · rfl
              · exfalso
                apply hmn
                refine List.mem_map.mpr ⟨f, hf2, ?_⟩
                rw [heq] at hn
                exact hn.symm
            subst hfm
            have h0 : subslice labels
                ((alookup (aset rc f (((alookup rc f).getD []) ++ labels)) f).getD [])
                = true := by
              rw [alookup_aset_self, Option.getD_some, subslice_iff]
              refine ⟨?_, fun x hx => List.mem_append.mpr (Or.inr hx)⟩
              rw [List.length_append]
              exact Nat.le_add_left _ _
            exact subslice_mono h0 (emitMetrics_recLE rest cv labels _ f)
          · have hf2 : f ∈ rest := by
              rcases List.mem_cons.mp hf with rfl | hf2
              · exact (name_not_in_rest h hn hmn).elim
              · exact hf2
            exact ih hnd2 hf2 h

lemma emitMetrics_suppressed {ms : List OpenvpnServerHeaderField}
    {cv : List (String × String)} {labels2 : List String}
    {rc : List (OpenvpnServerHeaderField × List String)} {L : List String}
    {f : OpenvpnServerHeaderField}
    (hnd : (ms.map (fun x => x.name)).Nodup) (hf : f ∈ ms)
    (hsub : subslice L ((alookup rc f).getD []) = true) :
    ∀ tup ∈ (emitMetrics ms cv labels2 rc).2.1, tup.name = f.name →
      tup.labels ≠ L := by
  induction ms generalizing rc with
  | nil =>
    intro tup h
    simp [emitMetrics] at h
  | cons m rest ih =>
    have hnd2 : (rest.map (fun x => x.name)).Nodup := (List.nodup_cons.mp hnd).2
    have hmn : m.name ∉ rest.map (fun x => x.name) := (List.nodup_cons.mp hnd).1
    intro tup h hn
    cases hv : alookup cv m.column with
    | none =>
      simp only [emitMetrics, hv] at h
      rcases List.mem_cons.mp hf with rfl | hf2
      · exact (name_not_in_rest h hn hmn).elim
      · exact ih hnd2 hf2 hsub tup h hn
    | some v =>
      by_cases hs : subslice labels2 ((alookup rc m).getD []) = true
      · simp only [emitMetrics, hv, hs, if_true] at h
        rcases List.mem_cons.mp hf with rfl | hf2
        · exact (name_not_in_rest h hn hmn).elim
        · exact ih hnd2 hf2 hsub tup h hn
      · cases hp : parseFloat v with
        | none =>
          simp only [emitMetrics, hv, if_neg hs, hp] at h
          simp at h
        | some value =>
          simp only [emitMetrics, hv, if_neg hs, hp] at h
          rcases List.mem_cons.mp h with heq | h
          · intro hL
            have hfm : f = m := by
              rcases List.mem_cons.mp hf with rfl | hf2
              · rfl
              · exfalso
                apply hmn
                refine List.mem_map.mpr ⟨f, hf2, ?_⟩
                rw [heq] at hn
                exact hn.symm
            subst hfm
            apply hs
            have hlab : tup.labels = labels2 := by rw [heq]
            rw [← hlab, hL]
            exact hsub
          · have hf2 : f ∈ rest := by
              rcases List.mem_cons.mp hf with rfl | hf2
              · exact (name_not_in_rest h hn hmn).elim
              · exact hf2
            have hmf : m ≠ f := by
              intro he
              exact hmn (List.mem_map.mpr ⟨f, hf2, (congrArg (fun x => x.name) he).symm⟩)
            have hsub2 : subslice L
                ((alookup (aset rc m (((alookup rc m).getD []) ++ labels2)) f).getD [])
                = true := by
              rw [alookup_aset_ne _ _ _ _ hmf]
              exact hsub
            exact ih hnd2 hf2 hsub2 tup h hn

lemma table_fields_name_inj :
    ∀ g ∈ clientListHeader.metrics ++ routingTableHeader.metrics,
    ∀ f ∈ clientListHeader.metrics ++ routingTableHeader.metrics,
    g.name = f.name → g = f := by decide

lemma table_fields_not_time :
    ∀ f ∈ clientListHeader.metrics ++ routingTableHeader.metrics,
    f.name ≠ "openvpn_status_update_time_seconds" := by decide

lemma processLine_recorded {env : Env} {sep : Char} {st : ScanState}
    {line : String} {hdr : OpenvpnServerHeader} {tup : MetricTuple}
    (htab : alookup openvpnServerHeaders ((splitFields sep line).headD "") = some hdr)
    (h : tup ∈ (processLine env sep st line).2.1) :
    ∃ f, f ∈ hdr.metrics ∧ tup.name = f.name ∧
      subslice tup.labels
        ((alookup (processLine env sep st line).1.recordedMetrics f).getD [])
        = true := by
  rw [processLine_data htab] at h ⊢
  cases hl : alookup st.headersFound ((splitFields sep line).headD "") with
  | none =>
    simp only [processDataRow, hl] at h
    simp at h
  | some cns =>
    by_cases hlen : (splitFields sep line).length ≠ cns.length + 1
    · simp only [processDataRow, hl, if_pos hlen] at h
      simp at h
    · by_cases hcn : getCol (overlayColumns (initColumnValues hdr.labelColumns)
          cns (splitFields sep line)) "Common Name" = "UNDEF" ∨
          getCol (overlayColumns (initColumnValues hdr.labelColumns)
            cns (splitFields sep line)) "Common Name" = ""
      · simp only [processDataRow, hl, if_neg hlen, if_pos hcn] at h
        simp at h
      · simp only [processDataRow, hl, if_neg hlen, if_neg hcn] at h ⊢
        obtain ⟨f, hf, hfn, hfl⟩ := emitMetrics_name_mem h
        refine ⟨f, hf, hfn, ?_⟩
        rw [hfl]
        exact emitMetrics_recorded (table_metrics_nodup htab) hf h hfn

lemma processDataRow_suppressed {env : Env} {t : String}
    {hdr : OpenvpnServerHeader} {fields : List String} {st : ScanState}
    {L : List String} {f : OpenvpnServerHeaderField}
    (hnd : (hdr.metrics.map (fun x => x.name)).Nodup)
    (hinj : ∀ g ∈ hdr.metrics, g.name = f.name → g = f)
    (hsub : subslice L ((alookup st.recordedMetrics f).getD []) = true) :
    ∀ tup ∈ (processDataRow env t hdr fields st).2.1, tup.name = f.name →
      tup.labels ≠ L := by
  intro tup h hn
  simp only [processDataRow] at h
  split at h
  · simp at h
  · split at h
    · simp at h
    · split at h
      · simp at h
      · by_cases hfm : f ∈ hdr.metrics
        · exact emitMetrics_suppressed hnd hfm hsub tup h hn
        · obtain ⟨g, hg, hgn, -⟩ := emitMetrics_name_mem h
          have hgf : g = f := hinj g hg (by rw [← hgn, hn])
          exact absurd (hgf ▸ hg) hfm

lemma processLine_suppressed {env : Env} {sep : Char} {st : ScanState}
    {line : String} {L : List String} {f : OpenvpnServerHeaderField}
    (hsub : subslice L ((alookup st.recordedMetrics f).getD []) = true)
    (hfin : f ∈ clientListHeader.metrics ++ routingTableHeader.metrics) :
    ∀ tup ∈ (processLine env sep st line).2.1, tup.name = f.name →
      tup.labels ≠ L := by
  intro tup h hn
  simp only [processLine] at h
  split at h
  · simp at h
  · split at h
    · simp at h
    · split at h
      · simp at h
      · split at h
        · split at h
          · simp at h
          · rcases List.mem_singleton.mp h with rfl
            exact absurd hn.symm (table_fields_not_time f hfin)
        · split at h
          · simp at h
          · split at h
            · rename_i hdr2 htab2
              have hmem : ∀ g ∈ hdr2.metrics,
                  g ∈ clientListHeader.metrics ++ routingTableHeader.metrics := by
                rcases table_cases htab2 with ⟨-, hh⟩ | ⟨-, hh⟩ <;> subst hh
                · exact fun g hg => List.mem_append.mpr (Or.inl hg)
                · exact fun g hg => List.mem_append.mpr (Or.inr hg)
              exact processDataRow_suppressed (table_metrics_nodup htab2)
                (fun g hg hgn => table_fields_name_inj g (hmem g hg) f hfin hgn)
                hsub tup h hn
            · simp at h

/-- C6: once a data row of a known RecordType has emitted a tuple for some
metric field, no later data row processed in the same snapshot can emit a
tuple with the same metric name and a literally identical label vector:
the second occurrence is suppressed by the deduplication check (only the
first is emitted). -/
theorem c6_identical_labels_deduplicated (env : Env) (sep : Char)
    (st0 : ScanState) (line1 line2 : String) (mid : List String)
    (hdr1 : OpenvpnServerHeader) (tup tup2 : MetricTuple)
    (htab : alookup openvpnServerHeaders ((splitFields sep line1).headD "") =
      some hdr1)
    (h1 : tup ∈ (processLine env sep st0 line1).2.1)
    (h2 : tup2 ∈ (processLine env sep
      (runLines env sep (processLine env sep st0 line1).1 mid).1 line2).2.1)
    (hn : tup2.name = tup.name) :
    tup2.labels ≠ tup.labels := by
  obtain ⟨f, hf, hfn, hsub1⟩ := processLine_recorded htab h1
  have hmono := runLines_recLE env sep (processLine env sep st0 line1).1 mid
  have hsub2 : subslice tup.labels
      ((alookup (runLines env sep (processLine env sep st0 line1).1
        mid).1.recordedMetrics f).getD []) = true :=
    subslice_mono hsub1 (hmono f)
  have hfin : f ∈ clientListHeader.metrics ++ routingTableHeader.metrics := by
    rcases table_cases htab with ⟨-, hh⟩ | ⟨-, hh⟩ <;> subst hh
    · exact List.mem_append.mpr (Or.inl hf)
    · exact List.mem_append.mpr (Or.inr hf)
  exact processLine_suppressed hsub2 hfin tup2 h2 (by rw [hn, hfn])

/-- Witness for C6: two concrete CLIENT_LIST rows for the same metric
field; since the first emitted, the theorem forces any second emission
under the same name to carry different labels — instantiated at the
second row with a different Common Name. -/
theorem c6_identical_labels_deduplicated_witness :
    (⟨"openvpn_server_client_received_bytes_total", .counter, 200,
      ["", "", "", "", "", "bob", "", "", "", "", "", "", "", ""]⟩ :
        MetricTuple).labels ≠
    (⟨"openvpn_server_client_received_bytes_total", .counter, 100,
      ["", "", "", "", "", "alice", "", "", "", "", "", "", "", ""]⟩ :
        MetricTuple).labels :=
  c6_identical_labels_deduplicated cEnv ',' stW
    "CLIENT_LIST,alice,100" "CLIENT_LIST,bob,200" [] clientListHeader
    ⟨"openvpn_server_client_received_bytes_total", .counter, 100,
      ["", "", "", "", "", "alice", "", "", "", "", "", "", "", ""]⟩
    ⟨"openvpn_server_client_received_bytes_total", .counter, 200,
      ["", "", "", "", "", "bob", "", "", "", "", "", "", "", ""]⟩
    (by decide) (by decide) (by decide) rfl

end OpenvpnExporter
